import Mathlib

set_option maxRecDepth 8000
set_option linter.dupNamespace false

/-! Shallow embedding of the Go package `mailer` from bakiversehq/mailer-client
(file mailer-client.go).

The package has four data types (`Client`, `EmailReq`, `EmailRes`, `Creds`),
one constructor `NewClient` and one method `Send`.  `Send` serializes an
`EmailReq` with encoding/json, performs one HTTP POST to `BaseURL ++ "/send"`
with content type "application/json", decodes the response body into
`EmailRes` with encoding/json, and maps the `Success` flag to an error.

The HTTP transport is external to the package; it is modelled as a function
from the request issued to the observed outcome (a transport failure or a
response with a status code and a body).  The JSON wire format is modelled by
the `JsonVal` type together with a parser that mirrors
`json.Decoder.Decode`: it reads one JSON value from the body and ignores any
trailing input, and it fails on an empty or malformed body.  Unmarshalling a
`JsonVal` into the `EmailRes` struct follows Go's rules: unknown object
fields are ignored, missing fields keep their zero value (`false` / `""`),
object keys are matched to struct fields case-insensitively, a `null`
sub-value leaves the field untouched, and a type mismatch makes the whole
decode fail.
-/

/-- JSON values as read from a response body.  Number literals keep their
source text: the client never looks at numeric values, a number can only
ever produce an unmarshalling type error. -/
inductive JsonVal where
  | null : JsonVal
  | bool : Bool → JsonVal
  | num : String → JsonVal
  | str : String → JsonVal
  | arr : List JsonVal → JsonVal
  | obj : List (String × JsonVal) → JsonVal

/-- Drop the JSON insignificant-whitespace characters from the front. -/
def skipWs : List Char → List Char
  | [] => []
  | c :: rest =>
    if c = ' ' ∨ c = '\t' ∨ c = '\n' ∨ c = '\r' then skipWs rest else c :: rest

/-- Value of one hexadecimal digit. -/
def hexVal (c : Char) : Option Nat :=
  if '0' ≤ c ∧ c ≤ '9' then some (c.toNat - '0'.toNat)
  else if 'a' ≤ c ∧ c ≤ 'f' then some (c.toNat - 'a'.toNat + 10)
  else if 'A' ≤ c ∧ c ≤ 'F' then some (c.toNat - 'A'.toNat + 10)
  else none

/-- Decode one JSON string escape (the input starts right after the
backslash); returns the decoded character and the rest of the input. -/
def unescape : List Char → Option (Char × List Char)
  | [] => none
  | e :: rest =>
    if e = '"' then some ('"', rest)
    else if e = '\\' then some ('\\', rest)
    else if e = '/' then some ('/', rest)
    else if e = 'n' then some ('\n', rest)
    else if e = 't' then some ('\t', rest)
    else if e = 'r' then some ('\r', rest)
    else if e = 'b' then some (Char.ofNat 8, rest)
    else if e = 'f' then some (Char.ofNat 12, rest)
    else if e = 'u' then
      match rest with
      | h1 :: h2 :: h3 :: h4 :: rest2 =>
        match hexVal h1, hexVal h2, hexVal h3, hexVal h4 with
        | some a, some b, some c, some d =>
          some (Char.ofNat (((a * 16 + b) * 16 + c) * 16 + d), rest2)
        | _, _, _, _ => none
      | _ => none
    else none

/-- Parse the remainder of a JSON string literal (the input starts right
after the opening quote); returns the content and the input after the
closing quote.  Raw control characters are rejected, as in Go.  `fuel`
bounds the recursion; one unit is spent per content character. -/
def parseStringRest : Nat → List Char → Option (List Char × List Char)
  | 0, _ => none
  | _ + 1, [] => none
  | fuel + 1, c :: rest =>
    if c = '"' then some ([], rest)
    else if c.toNat < 32 then none
    else if c = '\\' then
      match unescape rest with
      | some (d, rest2) =>
        match parseStringRest fuel rest2 with
        | some (s, rest3) => some (d :: s, rest3)
        | none => none
      | none => none
    else
      match parseStringRest fuel rest with
      | some (s, rest2) => some (c :: s, rest2)
      | none => none

/-- Characters that may occur in a JSON number literal. -/
def isNumChar (c : Char) : Bool :=
  c.isDigit || c = '-' || c = '+' || c = '.' || c = 'e' || c = 'E'

/-- Split off the longest run of number-literal characters. -/
def takeNumRun : List Char → List Char × List Char
  | [] => ([], [])
  | c :: rest =>
    if isNumChar c then
      let p := takeNumRun rest
      (c :: p.1, p.2)
    else ([], c :: rest)

/-- Match a literal character sequence at the front of the input. -/
def dropLit : List Char → List Char → Option (List Char)
  | [], input => some input
  | l :: ls, c :: cs => if c = l then dropLit ls cs else none
  | _ :: _, [] => none

mutual

/-- Parse one JSON value; returns the value and the unconsumed input.
`fuel` bounds the nesting recursion. -/
def parseVal : Nat → List Char → Option (JsonVal × List Char)
  | 0, _ => none
  | fuel + 1, input =>
    match skipWs input with
    | [] => none
    | c :: rest =>
      if c = '"' then
        match parseStringRest (rest.length + 1) rest with
        | some (s, r2) => some (.str (String.mk s), r2)
        | none => none
      else if c = '\x7b' then
        match skipWs rest with
        | '\x7d' :: r2 => some (.obj [], r2)
        | r2 =>
          match parseMembers fuel r2 with
          | some (fs, r3) => some (.obj fs, r3)
          | none => none
      else if c = '[' then
        match skipWs rest with
        | ']' :: r2 => some (.arr [], r2)
        | r2 =>
          match parseItems fuel r2 with
          | some (xs, r3) => some (.arr xs, r3)
          | none => none
      else if c = 't' then
        match dropLit ['r', 'u', 'e'] rest with
        | some r2 => some (.bool true, r2)
        | none => none
      else if c = 'f' then
        match dropLit ['a', 'l', 's', 'e'] rest with
        | some r2 => some (.bool false, r2)
        | none => none
      else if c = 'n' then
        match dropLit ['u', 'l', 'l'] rest with
        | some r2 => some (.null, r2)
        | none => none
      else if c.isDigit || c = '-' then
        let p := takeNumRun (c :: rest)
        some (.num (String.mk p.1), p.2)
      else none

/-- Parse the members of a JSON object (input starts at the first key);
returns the field list and the input after the closing brace. -/
def parseMembers : Nat → List Char → Option (List (String × JsonVal) × List Char)
  | 0, _ => none
  | fuel + 1, input =>
    match skipWs input with
    | '"' :: rest =>
      match parseStringRest (rest.length + 1) rest with
      | some (k, r2) =>
        match skipWs r2 with
        | ':' :: r3 =>
          match parseVal fuel r3 with
          | some (v, r4) =>
            match skipWs r4 with
            | ',' :: r5 =>
              match parseMembers fuel r5 with
              | some (fs, r6) => some ((String.mk k, v) :: fs, r6)
              | none => none
            | '\x7d' :: r5 => some ([(String.mk k, v)], r5)
            | _ => none
          | none => none
        | _ => none
      | none => none
    | _ => none

/-- Parse the items of a JSON array (input starts at the first item);
returns the item list and the input after the closing bracket. -/
def parseItems : Nat → List Char → Option (List JsonVal × List Char)
  | 0, _ => none
  | fuel + 1, input =>
    match parseVal fuel input with
    | some (v, r2) =>
      match skipWs r2 with
      | ',' :: r3 =>
        match parseItems fuel r3 with
        | some (xs, r4) => some (v :: xs, r4)
        | none => none
      | ']' :: r3 => some ([v], r3)
      | _ => none
    | none => none

end

/-- Read one JSON value from a body, as `json.Decoder.Decode` does: trailing
input after the first value is ignored, an empty or malformed body fails. -/
def parseTop (s : String) : Option JsonVal :=
  match parseVal (2 * s.length + 8) s.toList with
  | some (v, _) => some v
  | none => none

/-- Authentication data required by the mailer backend
(mailer-client.go lines 59-62, struct `Creds`). -/
structure Creds where
  Email : String
  Pwd : String
deriving DecidableEq

/-- Full request body for sending an email
(mailer-client.go lines 43-50, struct `EmailReq`).  The JSON tags, in struct
order, are "creds", "to_list", "subject", "body", "html", "from_name". -/
structure EmailReq where
  Creds : Creds
  ToList : List String
  Subject : String
  Body : String
  Html : Bool
  FromName : String
deriving DecidableEq

/-- JSON structure returned by the mailer API
(mailer-client.go lines 53-56, struct `EmailRes`).  The JSON tags are
"success" and "message"; the Go zero value of the struct is
`false` / `""`. -/
structure EmailRes where
  Success : Bool
  Message : String
deriving DecidableEq

/-- Go matches a JSON object key to a struct field by its JSON tag, exactly
or, failing that, case-insensitively; for the lowercase tags of `EmailRes`
the two rules coincide with a case-insensitive comparison. -/
def keyIs (k name : String) : Bool :=
  String.mk (k.toList.map Char.toLower) == name

/-- Assign the fields of a decoded JSON object into an `EmailRes` in order of
appearance, as `encoding/json` unmarshalling does: a key matching "success"
wants a boolean, a key matching "message" wants a string, `null` sub-values
are no-ops, unknown keys are ignored, a later duplicate overwrites, and a
type mismatch fails the whole decode. -/
def fieldFold : List (String × JsonVal) → EmailRes → Option EmailRes
  | [], acc => some acc
  | (k, v) :: rest, acc =>
    match keyIs k ("success"), keyIs k ("message"), v with
    | true, _, .bool b => fieldFold rest { acc with Success := b }
    | true, _, .null => fieldFold rest acc
    | true, _, _ => none
    | false, true, .str s => fieldFold rest { acc with Message := s }
    | false, true, .null => fieldFold rest acc
    | false, true, _ => none
    | false, false, _ => fieldFold rest acc

/-- Unmarshal a JSON value into `EmailRes` starting from the Go zero value.
A top-level `null` is a no-op (no error); any other non-object value is a
type mismatch. -/
def unmarshalEmailRes : JsonVal → Option EmailRes
  | .obj fields => fieldFold fields ⟨false, ""⟩
  | .null => some ⟨false, ""⟩
  | _ => none

/-- Model of `json.NewDecoder(res.Body).Decode(&resp)` in `Send`
(mailer-client.go line 89): read one JSON value from the body and unmarshal
it into `EmailRes`; `none` is the `err != nil` case. -/
def decodeEmailRes (body : String) : Option EmailRes :=
  match parseTop body with
  | some v => unmarshalEmailRes v
  | none => none

/-- Lowercase hexadecimal digit, as `encoding/json` emits in escapes. -/
def hexDigitChar (n : Nat) : Char :=
  if n < 10 then Char.ofNat ('0'.toNat + n) else Char.ofNat ('a'.toNat + (n - 10))

/-- Go `encoding/json` string escaping: quote, backslash, the HTML-unsafe
characters, control characters and the line separators are escaped, all
other characters are emitted verbatim. -/
def escChar (c : Char) : List Char :=
  if c = '"' then ['\\', '"']
  else if c = '\\' then ['\\', '\\']
  else if c = '\n' then ['\\', 'n']
  else if c = '\r' then ['\\', 'r']
  else if c = '\t' then ['\\', 't']
  else if c = '<' then ['\\', 'u', '0', '0', '3', 'c']
  else if c = '>' then ['\\', 'u', '0', '0', '3', 'e']
  else if c = '&' then ['\\', 'u', '0', '0', '2', '6']
  else if c.toNat < 32 then
    ['\\', 'u', '0', '0', hexDigitChar (c.toNat / 16), hexDigitChar (c.toNat % 16)]
  else if c.toNat = 0x2028 then ['\\', 'u', '2', '0', '2', '8']
  else if c.toNat = 0x2029 then ['\\', 'u', '2', '0', '2', '9']
  else [c]

/-- Serialize a string as a quoted JSON string literal. -/
def quoteStr (s : String) : String :=
  String.mk ('"' :: List.flatten (s.toList.map escChar) ++ ['"'])

mutual

/-- Serialize a JSON value the way `encoding/json` renders it: no
insignificant whitespace, object fields in order. -/
def jsonToString : JsonVal → String
  | .null => "null"
  | .bool true => "true"
  | .bool false => "false"
  | .num lit => lit
  | .str s => quoteStr s
  | .arr xs => "[" ++ arrToString xs ++ "]"
  | .obj fs => "\x7b" ++ objToString fs ++ "\x7d"

/-- Comma-separated serialization of array items. -/
def arrToString : List JsonVal → String
  | [] => ""
  | [x] => jsonToString x
  | x :: y :: rest => jsonToString x ++ "," ++ arrToString (y :: rest)

/-- Comma-separated serialization of object fields. -/
def objToString : List (String × JsonVal) → String
  | [] => ""
  | [(k, v)] => quoteStr k ++ ":" ++ jsonToString v
  | (k, v) :: m :: rest => quoteStr k ++ ":" ++ jsonToString v ++ "," ++ objToString (m :: rest)

end

/-- JSON document shape `json.Marshal` produces for an `EmailReq`: the fields
in struct order under their JSON tags (mailer-client.go lines 43-50 and
59-62).  Go would render a nil `ToList` slice as `null`; the Lean model has
no nil/empty distinction for lists, and no claim depends on it. -/
def emailReqToJson (r : EmailReq) : JsonVal :=
  .obj [("creds", .obj [("email", .str r.Creds.Email), ("pwd", .str r.Creds.Pwd)]),
        ("to_list", .arr (r.ToList.map .str)),
        ("subject", .str r.Subject),
        ("body", .str r.Body),
        ("html", .bool r.Html),
        ("from_name", .str r.FromName)]

/-- Model of `json.Marshal(req)` in `Send` (mailer-client.go line 77).
`json.Marshal` can fail only on unsupported types (channels, functions,
complex numbers), unsupported values (NaN, infinities) or cyclic data; a
struct whose fields are strings, a bool and a string slice contains none of
these, so on `EmailReq` the call always returns `.ok`.  The `Except` shape
keeps the `err != nil` check of the source visible. -/
def marshalEmailReq (r : EmailReq) : Except String String :=
  .ok (jsonToString (emailReqToJson r))

/-- The default HTTP transport allocated by `NewClient`
(mailer-client.go line 69): `http.Client` with `Timeout: 10 * time.Second`.
`Timeout` is a Go `time.Duration`, counted in nanoseconds. -/
structure GoHttpClient where
  Timeout : Nat
deriving DecidableEq

/-- Configuration to interact with the remote Mailer service
(mailer-client.go lines 38-41, struct `Client`). -/
structure Client where
  BaseURL : String
  Client : GoHttpClient
deriving DecidableEq

/-- Constructor `NewClient` (mailer-client.go lines 66-71): stores the given
base URL unchanged and allocates a transport with a 10-second timeout.  No
validation of any kind is performed. -/
def NewClient (baseURL : String) : Client :=
  { BaseURL := baseURL, Client := { Timeout := 10 * 1000000000 } }

/-- The HTTP POST request `Send` issues, as observed by the transport:
URL, content type and body (the arguments of `c.Client.Post` at
mailer-client.go line 82). -/
structure HttpRequest where
  url : String
  contentType : String
  body : String
deriving DecidableEq

/-- What the transport reports back for one request: either a network
failure carrying the underlying error text, or an HTTP response with a
status code and a body. -/
inductive HttpResult where
  | transportFailure : String → HttpResult
  | response : Nat → String → HttpResult

/-- The four return sites of `Send` that produce a non-nil error
(mailer-client.go lines 79, 84, 90, 93), tagged by kind.  The
serialization and transport constructors carry the underlying error's
text; the other two messages are fixed by `Send` itself. -/
inductive SendError where
  | serializationError : String → SendError
  | transportError : String → SendError
  | responseDecodeError : SendError
  | backendRejection : String → SendError
deriving DecidableEq

/-- The error string the caller of `Send` observes for each error value. -/
def errorMessage : SendError → String
  | .serializationError m => m
  | .transportError m => m
  | .responseDecodeError => "email sent but failed to decode response"
  | .backendRejection m => "failed to send email: " ++ m

/-- The request `Send` hands to `c.Client.Post` (mailer-client.go line 82):
URL `c.BaseURL + "/send"`, content type "application/json", and the
marshalled document as the body. -/
def postRequest (c : Client) (doc : String) : HttpRequest :=
  { url := c.BaseURL ++ "/send", contentType := "application/json", body := doc }

/-- Method `Send` (mailer-client.go lines 76-97), with the list of HTTP
requests it hands to the transport recorded alongside the result:
marshal the request, POST it once, decode the response body, and map the
`Success` flag to the outcome.  The status code of the response is never
inspected. -/
def sendTrace (c : Client) (req : EmailReq) (transport : HttpRequest → HttpResult) :
    Option SendError × List HttpRequest :=
  match marshalEmailReq req with
  | .error e => (some (.serializationError e), [])
  | .ok doc =>
    match transport (postRequest c doc) with
    | .transportFailure e => (some (.transportError e), [postRequest c doc])
    | .response _status body =>
      match decodeEmailRes body with
      | none => (some .responseDecodeError, [postRequest c doc])
      | some resp =>
        if !resp.Success then (some (.backendRejection resp.Message), [postRequest c doc])
        else (none, [postRequest c doc])

/-- The error value `Send` returns (`none` is Go's `nil`). -/
def sendE (c : Client) (req : EmailReq) (transport : HttpRequest → HttpResult) :
    Option SendError :=
  (sendTrace c req transport).1

/-- The error string the caller observes from `Send` (`none` is success). -/
def Send (c : Client) (req : EmailReq) (transport : HttpRequest → HttpResult) :
    Option String :=
  (sendE c req transport).map errorMessage

/-- The five possible outcomes of one `Send` call, as the spec's taxonomy
names them. -/
inductive OutcomeKind where
  | success : OutcomeKind
  | serializationError : OutcomeKind
  | transportError : OutcomeKind
  | responseDecodeError : OutcomeKind
  | backendRejection : OutcomeKind
deriving DecidableEq

/-- Classify a `Send` result into its outcome kind. -/
def outcomeKind : Option SendError → OutcomeKind
  | none => .success
  | some (.serializationError _) => .serializationError
  | some (.transportError _) => .transportError
  | some .responseDecodeError => .responseDecodeError
  | some (.backendRejection _) => .backendRejection

/-- Keys of a JSON object, in order. -/
def objKeys : JsonVal → Option (List String)
  | .obj fs => some (fs.map (fun kv => kv.1))
  | _ => none

/-- First value bound to a key in a JSON object. -/
def objGet : JsonVal → String → Option JsonVal
  | .obj fs, k =>
    match fs.find? (fun kv => kv.1 == k) with
    | some kv => some kv.2
    | none => none
  | _, _ => none

/-- Helper: with a transport that answers with a response, `Send` on a body
that decodes to a rejected `EmailRes` returns the prefixed backend
message. -/
lemma send_reject_of_decode (c : Client) (r : EmailReq) (s : Nat) (body : String)
    (resp : EmailRes) (hdec : decodeEmailRes body = some resp)
    (hsucc : resp.Success = false) :
    Send c r (fun _ => .response s body) =
      some ("failed to send email: " ++ resp.Message) := by
  simp [Send, sendE, sendTrace, marshalEmailReq, hdec, hsucc, errorMessage]

/-- Helper: `fieldFold` leaves the `Success` field at its starting value when
no JSON key matches "success". -/
lemma fieldFold_success_invariant :
    ∀ (fields : List (String × JsonVal)) (acc resp : EmailRes),
      (∀ kv ∈ fields, keyIs kv.1 ("success") = false) →
      fieldFold fields acc = some resp → resp.Success = acc.Success := by
  intro fields
  induction fields with
  | nil =>
    intro acc resp _ h
    simp [fieldFold] at h
    simp [← h]
  | cons kv rest ih =>
    intro acc resp hks h
    obtain ⟨k, v⟩ := kv
    have hk : keyIs k ("success") = false := hks (k, v) (by simp)
    have hrest : ∀ kv ∈ rest, keyIs kv.1 ("success") = false :=
      fun kv hkv => hks kv (by simp [hkv])
    by_cases hm : keyIs k ("message") = true
    · cases v with
      | str s =>
        simp [fieldFold, hk, hm] at h
        exact ih { acc with Message := s } resp hrest h
      | null =>
        simp [fieldFold, hk, hm] at h
        exact ih _ _ hrest h
      | bool b => simp [fieldFold, hk, hm] at h
      | num lit => simp [fieldFold, hk, hm] at h
      | arr xs => simp [fieldFold, hk, hm] at h
      | obj fs => simp [fieldFold, hk, hm] at h
    · have hm' : keyIs k ("message") = false := by
        cases hkm : keyIs k ("message") with
        | true => exact absurd hkm hm
        | false => rfl
      simp [fieldFold, hk, hm'] at h
      exact ih _ _ hrest h

/-- C1: the outcome of `Send` is determined solely by the response body and
never by the HTTP status code: two responses with the same body and
different status codes (for instance 200 versus 500) yield the same result,
and in particular a body whose JSON is success-true with HTTP 500 is
treated as success. -/
theorem send_status_blind :
    (∀ (c : Client) (r : EmailReq) (body : String) (s1 s2 : Nat),
        Send c r (fun _ => .response s1 body) = Send c r (fun _ => .response s2 body)) ∧
    Send (NewClient ("http://mailer")) ⟨⟨"noreply@x", "pw"⟩, ["u@v"], "s", "b", false, ""⟩
        (fun _ => .response 500 ("\x7b\"success\": true\x7d")) = none := by
  constructor
  · intro c r body s1 s2
    rfl
  · decide

/-- C2: whenever the response body decodes to an `EmailRes` with
`Success = false`, `Send` returns the error whose message is exactly
"failed to send email: " followed by the backend's message verbatim. -/
theorem send_backend_rejection_message (c : Client) (r : EmailReq) (s : Nat)
    (body : String) (resp : EmailRes) (hdec : decodeEmailRes body = some resp)
    (hsucc : resp.Success = false) :
    Send c r (fun _ => .response s body) =
      some ("failed to send email: " ++ resp.Message) :=
  send_reject_of_decode c r s body resp hdec hsucc

/-- Witness for C2: the body success-false / message "invalid recipient"
with HTTP 200 yields exactly "failed to send email: invalid recipient". -/
theorem send_backend_rejection_message_witness :
    Send (NewClient ("http://mailer")) ⟨⟨"noreply@x", "pw"⟩, ["u@v"], "s", "b", false, ""⟩
        (fun _ => .response 200 ("\x7b\"success\": false, \"message\": \"invalid recipient\"\x7d")) =
      some ("failed to send email: " ++ "invalid recipient") :=
  send_backend_rejection_message (NewClient ("http://mailer"))
    ⟨⟨"noreply@x", "pw"⟩, ["u@v"], "s", "b", false, ""⟩ 200
    ("\x7b\"success\": false, \"message\": \"invalid recipient\"\x7d")
    ⟨false, "invalid recipient"⟩ (by decide) (by decide)

/-- C3: whenever the response body fails to decode as the `EmailRes` JSON
shape, for any HTTP status, `Send` returns the error with exactly the fixed
message "email sent but failed to decode response". -/
theorem send_decode_failure_message (c : Client) (r : EmailReq) (s : Nat)
    (body : String) (hdec : decodeEmailRes body = none) :
    Send c r (fun _ => .response s body) =
      some ("email sent but failed to decode response") := by
  simp [Send, sendE, sendTrace, marshalEmailReq, hdec, errorMessage]

/-- Witness for C3: an empty body with HTTP 200 yields the fixed decode
failure message. -/
theorem send_decode_failure_message_witness :
    Send (NewClient ("http://mailer")) ⟨⟨"noreply@x", "pw"⟩, ["u@v"], "s", "b", false, ""⟩
        (fun _ => .response 200 ("")) =
      some ("email sent but failed to decode response") :=
  send_decode_failure_message (NewClient ("http://mailer"))
    ⟨⟨"noreply@x", "pw"⟩, ["u@v"], "s", "b", false, ""⟩ 200 ("") (by decide)

/-- C4: whenever the response body decodes to an `EmailRes` with
`Success = true`, `Send` returns success (`none`, Go's nil error),
whatever the message field holds and whatever the HTTP status is. -/
theorem send_success_no_error (c : Client) (r : EmailReq) (s : Nat)
    (body : String) (resp : EmailRes) (hdec : decodeEmailRes body = some resp)
    (hsucc : resp.Success = true) :
    Send c r (fun _ => .response s body) = none := by
  simp [Send, sendE, sendTrace, marshalEmailReq, hdec, hsucc]

/-- Witness for C4: the body success-true / empty message with HTTP 200
yields success. -/
theorem send_success_no_error_witness :
    Send (NewClient ("http://mailer")) ⟨⟨"noreply@x", "pw"⟩, ["u@v"], "s", "b", false, ""⟩
        (fun _ => .response 200 ("\x7b\"success\": true, \"message\": \"\"\x7d")) = none :=
  send_success_no_error (NewClient ("http://mailer"))
    ⟨⟨"noreply@x", "pw"⟩, ["u@v"], "s", "b", false, ""⟩ 200
    ("\x7b\"success\": true, \"message\": \"\"\x7d") ⟨true, ""⟩ (by decide) (by decide)

/-- C5: one invocation of `Send` yields exactly one outcome from the set
success, serialization error, transport error, response-decode error,
backend rejection — never more than one and never none — and the five
kinds are pairwise distinct. -/
theorem send_exactly_one_outcome :
    (∀ (c : Client) (r : EmailReq) (t : HttpRequest → HttpResult),
        ∃! k : OutcomeKind, outcomeKind (sendE c r t) = k) ∧
    ([OutcomeKind.success, OutcomeKind.serializationError, OutcomeKind.transportError,
      OutcomeKind.responseDecodeError, OutcomeKind.backendRejection] :
        List OutcomeKind).Nodup := by
  constructor
  · intro c r t
    exact ⟨outcomeKind (sendE c r t), rfl, fun k hk => hk.symm⟩
  · decide

/-- C6: for every client and request, `Send` hands the transport exactly one
request: a POST to `BaseURL ++ "/send"` with content type
"application/json" and the marshalled JSON document as the body — no
retry ever happens. -/
theorem send_single_post (c : Client) (r : EmailReq) (t : HttpRequest → HttpResult) :
    (sendTrace c r t).2 =
      [{ url := c.BaseURL ++ "/send", contentType := "application/json",
         body := jsonToString (emailReqToJson r) }] := by
  cases ht : t (postRequest c (jsonToString (emailReqToJson r))) with
  | transportFailure e =>
    simp only [postRequest] at ht
    simp [sendTrace, marshalEmailReq, ht, postRequest]
  | response st body =>
    simp only [postRequest] at ht
    cases hd : decodeEmailRes body with
    | none => simp [sendTrace, marshalEmailReq, ht, hd, postRequest]
    | some resp =>
      cases hs : resp.Success <;>
        simp [sendTrace, marshalEmailReq, ht, hd, hs, postRequest]

/-- C7: the JSON document `Send` marshals for a request has exactly the wire
shape of the spec: a top-level object with the keys "creds" (itself an
object with keys "email" and "pwd"), "to_list", "subject", "body", "html"
and "from_name", each bound to the corresponding field's value; every key
is present for every request, the empty display name included. -/
theorem marshal_wire_shape (r : EmailReq) :
    objKeys (emailReqToJson r) =
      some ["creds", "to_list", "subject", "body", "html", "from_name"] ∧
    objGet (emailReqToJson r) ("creds") =
      some (.obj [("email", .str r.Creds.Email), ("pwd", .str r.Creds.Pwd)]) ∧
    objGet (emailReqToJson r) ("to_list") = some (.arr (r.ToList.map .str)) ∧
    objGet (emailReqToJson r) ("subject") = some (.str r.Subject) ∧
    objGet (emailReqToJson r) ("body") = some (.str r.Body) ∧
    objGet (emailReqToJson r) ("html") = some (.bool r.Html) ∧
    objGet (emailReqToJson r) ("from_name") = some (.str r.FromName) ∧
    marshalEmailReq r = .ok (jsonToString (emailReqToJson r)) :=
  ⟨rfl, rfl, rfl, rfl, rfl, rfl, rfl, rfl⟩

/-- C8: `NewClient` succeeds on every input string, empty or malformed ones
included, stores the base URL unchanged, and allocates a transport whose
timeout is exactly 10 seconds (Go durations count nanoseconds). -/
theorem newClient_fields (baseURL : String) :
    (NewClient baseURL).BaseURL = baseURL ∧
    (NewClient baseURL).Client.Timeout = 10 * 1000000000 :=
  ⟨rfl, rfl⟩

/-- C9: marshalling an `EmailReq` — strings, a boolean and a list of strings
— always succeeds, so the serialization-error branch of `Send` is
unreachable: no call ever yields the serialization-error outcome. -/
theorem send_serialization_unreachable (c : Client) (r : EmailReq)
    (t : HttpRequest → HttpResult) :
    (∃ doc, marshalEmailReq r = .ok doc) ∧
    outcomeKind (sendE c r t) ≠ OutcomeKind.serializationError := by
  refine ⟨⟨jsonToString (emailReqToJson r), rfl⟩, ?_⟩
  cases ht : t (postRequest c (jsonToString (emailReqToJson r))) with
  | transportFailure e =>
    simp only [postRequest] at ht
    simp [outcomeKind, sendE, sendTrace, marshalEmailReq, postRequest, ht]
  | response st body =>
    simp only [postRequest] at ht
    cases hd : decodeEmailRes body with
    | none => simp [outcomeKind, sendE, sendTrace, marshalEmailReq, postRequest, ht, hd]
    | some resp =>
      cases hs : resp.Success <;>
        simp [outcomeKind, sendE, sendTrace, marshalEmailReq, postRequest, ht, hd, hs]

/-- C10 counterexample: the body consisting of the JSON object with the
single field "message" bound to the number 0 is a syntactically valid JSON
object lacking the "success" field, yet decoding FAILS (type mismatch on
"message"), so `Send` returns the response-decode error and not a backend
rejection — refuting the claim that every valid JSON object lacking
"success" decodes successfully and is classified as a rejection. -/
theorem missing_success_counterexample :
    parseTop ("\x7b\"message\": 0\x7d") = some (.obj [("message", .num ("0"))]) ∧
    decodeEmailRes ("\x7b\"message\": 0\x7d") = none ∧
    Send (NewClient ("http://mailer")) ⟨⟨"noreply@x", "pw"⟩, ["u@v"], "s", "b", false, ""⟩
        (fun _ => .response 200 ("\x7b\"message\": 0\x7d")) =
      some ("email sent but failed to decode response") :=
  ⟨rfl, by decide, by decide⟩

/-- C10 (amended): for every response body that is a syntactically valid
JSON object none of whose keys matches "success" (Go matching, hence
case-insensitively) and that decodes successfully, the decoded `Success`
flag is `false` — its Go zero value — so `Send` classifies the response as
a backend rejection, returning "failed to send email: " followed by the
decoded message (empty when absent), rather than a response-decode
error. -/
theorem missing_success_rejection (c : Client) (r : EmailReq) (s : Nat)
    (body : String) (fields : List (String × JsonVal)) (resp : EmailRes)
    (hparse : parseTop body = some (.obj fields))
    (hks : ∀ kv ∈ fields, keyIs kv.1 ("success") = false)
    (hdec : decodeEmailRes body = some resp) :
    resp.Success = false ∧
    Send c r (fun _ => .response s body) =
      some ("failed to send email: " ++ resp.Message) := by
  have hfold : fieldFold fields ⟨false, ""⟩ = some resp := by
    simpa [decodeEmailRes, hparse, unmarshalEmailRes] using hdec
  have hsucc : resp.Success = false :=
    fieldFold_success_invariant fields ⟨false, ""⟩ resp hks hfold
  exact ⟨hsucc, send_reject_of_decode c r s body resp hdec hsucc⟩

/-- Witness for the amended C10: the body "\x7b\x7d" (the empty JSON
object) yields a rejection whose message is the bare "failed to send
email: " followed by the empty decoded message. -/
theorem missing_success_rejection_witness :
    EmailRes.Success ⟨false, ""⟩ = false ∧
    Send (NewClient ("http://mailer")) ⟨⟨"noreply@x", "pw"⟩, ["u@v"], "s", "b", false, ""⟩
        (fun _ => .response 200 ("\x7b\x7d")) =
      some ("failed to send email: " ++ "") :=
  missing_success_rejection (NewClient ("http://mailer"))
    ⟨⟨"noreply@x", "pw"⟩, ["u@v"], "s", "b", false, ""⟩ 200 ("\x7b\x7d") [] ⟨false, ""⟩
    (by rfl) (by simp) (by decide)
